import Mathlib

/-
Verification of the article-ingestion fetcher, the timing wrapper and the
environment-variable helper of the repository, via a shallow embedding of
src/haystack_lib.py and src/helper.py.
-/

namespace Haystack

/-- A normalized output document: a content string plus an optional metadata
title, embedding the Document objects the fetcher appends. -/
structure Document where
  content : String
  metaTitle : Option String
  deriving DecidableEq

/-- Upstream story record: the optional url, text and title fields of the
per-identifier item JSON object. -/
structure StoryRecord where
  url : Option String
  text : Option String
  title : Option String
  deriving DecidableEq

/-- Console output produced while the fetcher runs: the print statement in the
text branch and the skip notice printed by each except handler. -/
inductive LogEntry where
  | textIn (id : Nat)
  | skipped (id : Nat)
  deriving DecidableEq

/-- The upstream environment one call interacts with: the result of the index
GET plus its JSON parse, the result of each per-identifier GET plus its JSON
parse, and the fetch-and-convert sub-pipeline applied to a url (returning the
list article converter documents). An error value embeds a raised exception. -/
structure World where
  index : Except String (List Nat)
  record : Nat → Except String StoryRecord
  pipeline : String → Except String (List Document)

/-- Python slice l[0:stop] with an integer stop, as applied to the trending
list: a nonnegative stop takes at most stop elements, a negative stop takes
all but the last (-stop) elements. -/
def pySlice0 {α : Type} (stop : Int) (l : List α) : List α :=
  if stop < 0 then l.take (l.length - (-stop).toNat) else l.take stop.toNat

/-- The body of one loop iteration after the record GET succeeded: the
documents appended and the lines printed for this story. The url branch runs
the sub-pipeline in a try and appends element 0 of its document list, any
failure (pipeline error or empty list) printing a skip notice; the text branch
prints a text notice and constructs a Document from the text and title fields,
a missing title raising inside the try and printing a skip notice; with
neither field the story is passed over silently. -/
def storyStep (w : World) (id : Nat) (post : StoryRecord) :
    List Document × List LogEntry :=
  match post.url with
  | some u =>
    match w.pipeline u with
    | .ok docs =>
      match docs.head? with
      | some d => ([d], [])
      | none => ([], [.skipped id])
    | .error _ => ([], [.skipped id])
  | none =>
    match post.text with
    | some t =>
      match post.title with
      | some ti => ([{ content := t, metaTitle := some ti }], [.textIn id])
      | none => ([], [.textIn id, .skipped id])
    | none => ([], [])

/-- The for loop over the sliced identifier list. The per-identifier GET is
outside every try block, so its failure aborts the whole call. -/
def runLoop (w : World) (acc : List Document × List LogEntry) :
    List Nat → Except String (List Document × List LogEntry)
  | [] => .ok acc
  | id :: rest =>
    match w.record id with
    | .error e => .error e
    | .ok post =>
      let step := storyStep w id post
      runLoop w (acc.1 ++ step.1, acc.2 ++ step.2) rest

/-- HackernewsNewestFetcher.run: performs the index request, slices the
identifier list to top_k and folds the per-story processing over it, returning
the accumulated articles together with the printed lines. -/
def HackernewsNewestFetcher.run (w : World) (top_k : Int) :
    Except String (List Document × List LogEntry) :=
  match w.index with
  | .error e => .error e
  | .ok trending => runLoop w ([], []) (pySlice0 top_k trending)

/-- TimedComponent: wraps a component, exposing its run while timing it. -/
structure TimedComponent (κ ρ : Type) where
  component : κ → ρ
  name : String

/-- TimedComponent.run: calls the wrapped component on the keyword arguments,
then prints the elapsed duration; returns the wrapped result unchanged. -/
def TimedComponent.run {κ ρ : Type} (tc : TimedComponent κ ρ)
    (start stop : Nat) (kwargs : κ) : ρ × String :=
  let result := tc.component kwargs
  (result, tc.name ++ " took " ++ toString (stop - start) ++ " seconds")

/-- The whitespace characters removed by the Python str.strip default, for the
ASCII range relevant here. -/
def pyIsSpace (c : Char) : Bool :=
  c == ' ' || c == '\t' || c == '\n' || c == '\r' ||
    c == Char.ofNat 11 || c == Char.ofNat 12

/-- Python value.strip(): drop leading and trailing whitespace. -/
def pyStrip (s : String) : String :=
  String.mk (((s.data.dropWhile pyIsSpace).reverse.dropWhile pyIsSpace).reverse)

/-- Python value.rstrip left bracket comma right bracket: drop every trailing
comma character. -/
def pyRstripComma (s : String) : String :=
  String.mk ((s.data.reverse.dropWhile (fun c => c == ',')).reverse)

/-- get_env_var from src/helper.py over an explicit process environment: None
when the variable is unset, otherwise the value stripped of surrounding
whitespace and then of trailing commas. -/
def get_env_var (env : String → Option String) (v : String) : Option String :=
  match env v with
  | none => none
  | some value => some (pyRstripComma (pyStrip value))

instance exceptDecEq {ε α : Type} [DecidableEq ε] [DecidableEq α] :
    DecidableEq (Except ε α)
  | .error e, .error f =>
    if h : e = f then isTrue (by rw [h])
    else isFalse (by intro hh; cases hh; exact h rfl)
  | .error _, .ok _ => isFalse (by intro hh; cases hh)
  | .ok _, .error _ => isFalse (by intro hh; cases hh)
  | .ok a, .ok b =>
    if h : a = b then isTrue (by rw [h])
    else isFalse (by intro hh; cases hh; exact h rfl)

/-! Helper lemmas about the slice and the loop. -/

theorem pySlice0_of_nonneg {α : Type} (stop : Int) (h : 0 ≤ stop) (l : List α) :
    pySlice0 stop l = l.take stop.toNat := by
  unfold pySlice0
  rw [if_neg (by omega)]

theorem pySlice0_of_length_le {α : Type} (stop : Int) (l : List α)
    (h : (l.length : Int) ≤ stop) : pySlice0 stop l = l := by
  rw [pySlice0_of_nonneg stop (by omega) l]
  exact List.take_of_length_le (by omega)

theorem pySlice0_eq_nil {α : Type} (stop : Int) (l : List α)
    (h : stop = 0 ∨ stop + l.length ≤ 0) : pySlice0 stop l = [] := by
  unfold pySlice0
  rcases h with h | h
  · subst h
    rw [if_neg (by omega)]
    simp
  · by_cases hneg : stop < 0
    · rw [if_pos hneg]
      have : l.length - (-stop).toNat = 0 := by omega
      rw [this, List.take_zero]
    · rw [if_neg hneg]
      have h0 : stop = 0 := by omega
      have hl : l.length = 0 := by omega
      rw [List.length_eq_zero] at hl
      subst hl
      simp

theorem pySlice0_length_le {α : Type} (stop : Int) (h : 0 ≤ stop) (l : List α) :
    (pySlice0 stop l).length ≤ stop.toNat := by
  rw [pySlice0_of_nonneg stop h l]
  simp [List.length_take]

theorem storyStep_docs_length_le (w : World) (id : Nat) (r : StoryRecord) :
    (storyStep w id r).1.length ≤ 1 := by
  unfold storyStep
  rcases r with ⟨url, text, title⟩
  dsimp only
  cases url with
  | some u =>
    cases hpu : w.pipeline u with
    | ok docs => cases docs <;> simp [hpu]
    | error e => simp [hpu]
  | none =>
    cases text with
    | some t => cases title <;> simp
    | none => simp

theorem storyStep_pipeline_congr {w w' : World} (h : w.pipeline = w'.pipeline)
    (id : Nat) (r : StoryRecord) : storyStep w id r = storyStep w' id r := by
  unfold storyStep
  rw [h]

theorem runLoop_nil (w : World) (acc : List Document × List LogEntry) :
    runLoop w acc [] = .ok acc := rfl

theorem runLoop_cons (w : World) (acc : List Document × List LogEntry)
    (id : Nat) (rest : List Nat) :
    runLoop w acc (id :: rest) =
      match w.record id with
      | .error e => .error e
      | .ok post =>
        runLoop w (acc.1 ++ (storyStep w id post).1,
          acc.2 ++ (storyStep w id post).2) rest := rfl

theorem runLoop_map_of_records (w : World) (f : Nat → StoryRecord) :
    ∀ (ids : List Nat) (acc : List Document × List LogEntry),
      (∀ id ∈ ids, w.record id = .ok (f id)) →
      runLoop w acc ids =
        .ok (acc.1 ++ (ids.map fun id => (storyStep w id (f id)).1).flatten,
          acc.2 ++ (ids.map fun id => (storyStep w id (f id)).2).flatten) := by
  intro ids
  induction ids with
  | nil => intro acc _; simp [runLoop_nil]
  | cons a rest ih =>
    intro acc h
    have ha : w.record a = .ok (f a) := h a (by simp)
    have hrest : ∀ id ∈ rest, w.record id = .ok (f id) := by
      intro id hid
      exact h id (by simp [hid])
    rw [runLoop_cons, ha]
    dsimp only
    rw [ih _ hrest]
    simp [List.append_assoc]

theorem runLoop_ok_of_records (w : World) :
    ∀ (ids : List Nat) (acc : List Document × List LogEntry),
      (∀ id ∈ ids, ∃ r, w.record id = .ok r) →
      ∃ p, runLoop w acc ids = .ok p := by
  intro ids
  induction ids with
  | nil => intro acc _; exact ⟨acc, rfl⟩
  | cons a rest ih =>
    intro acc h
    obtain ⟨r, hr⟩ := h a (by simp)
    have hrest : ∀ id ∈ rest, ∃ s, w.record id = .ok s := by
      intro id hid
      exact h id (by simp [hid])
    obtain ⟨p, hp⟩ := ih (acc.1 ++ (storyStep w a r).1,
      acc.2 ++ (storyStep w a r).2) hrest
    refine ⟨p, ?_⟩
    rw [runLoop_cons, hr]
    exact hp

theorem runLoop_length_le (w : World) :
    ∀ (ids : List Nat) (acc : List Document × List LogEntry)
      (p : List Document × List LogEntry),
      runLoop w acc ids = .ok p → p.1.length ≤ acc.1.length + ids.length := by
  intro ids
  induction ids with
  | nil =>
    intro acc p h
    rw [runLoop_nil] at h
    cases h
    simp
  | cons a rest ih =>
    intro acc p h
    rw [runLoop_cons] at h
    cases hr : w.record a with
    | error e => rw [hr] at h; cases h
    | ok post =>
      rw [hr] at h
      dsimp only at h
      have := ih _ _ h
      have hstep := storyStep_docs_length_le w a post
      simp only [List.length_append, List.length_cons] at this ⊢
      omega

theorem runLoop_congr {w w' : World} (hp : w.pipeline = w'.pipeline) :
    ∀ (ids : List Nat) (acc : List Document × List LogEntry),
      (∀ id ∈ ids, w.record id = w'.record id) →
      runLoop w acc ids = runLoop w' acc ids := by
  intro ids
  induction ids with
  | nil => intro acc _; rfl
  | cons a rest ih =>
    intro acc h
    have ha : w.record a = w'.record a := h a (by simp)
    have hrest : ∀ id ∈ rest, w.record id = w'.record id := by
      intro id hid
      exact h id (by simp [hid])
    rw [runLoop_cons, runLoop_cons, ← ha]
    cases w.record a with
    | error e => rfl
    | ok post =>
      dsimp only
      rw [storyStep_pipeline_congr hp a post]
      exact ih _ hrest

theorem sum_lengths_of_all_one {α : Type} (g : α → Nat) :
    ∀ (l : List α), (∀ a ∈ l, g a = 1) → (l.map g).sum = l.length := by
  intro l
  induction l with
  | nil => intro _; rfl
  | cons a rest ih =>
    intro h
    have ha : g a = 1 := h a (by simp)
    have hrest : ∀ b ∈ rest, g b = 1 := by
      intro b hb
      exact h b (by simp [hb])
    simp [ha, ih hrest, Nat.add_comm]

theorem head_of_dropWhile_not {α : Type} (p : α → Bool) :
    ∀ (l : List α) (a : α), (l.dropWhile p).head? = some a → p a = false := by
  intro l
  induction l with
  | nil => intro a h; simp [List.dropWhile] at h
  | cons b rest ih =>
    intro a h
    rw [List.dropWhile_cons] at h
    by_cases hb : p b
    · rw [if_pos hb] at h
      exact ih a h
    · rw [if_neg hb] at h
      simp only [List.head?_cons, Option.some.injEq] at h
      subst h
      exact Bool.eq_false_iff.mpr hb

theorem pyRstripComma_no_trailing_comma (s : String) :
    (pyRstripComma s).data.getLast? ≠ some ',' := by
  show ((s.data.reverse.dropWhile (fun c => c == ',')).reverse).getLast? ≠
    some ','
  rw [List.getLast?_reverse]
  intro h
  have := head_of_dropWhile_not (fun c => c == ',') _ _ h
  simp at this

/-- A sample process environment used to instantiate the helper theorems. -/
def sampleEnv : String → Option String :=
  fun n => if n = "API_BASE_URL" then some " http://x,, " else none

/-! The claims. -/

/-- C10: get_env_var returns none exactly when the named environment variable
is unset; when the variable is set it returns the value with surrounding
whitespace stripped and then trailing commas removed, and the returned string
never ends with a comma. -/
theorem get_env_var_spec (env : String → Option String) (n : String) :
    (get_env_var env n = none ↔ env n = none)
    ∧ (∀ v, env n = some v →
        get_env_var env n = some (pyRstripComma (pyStrip v)))
    ∧ (∀ r, get_env_var env n = some r → r.data.getLast? ≠ some ',') := by
  refine ⟨?_, ?_, ?_⟩
  · unfold get_env_var
    cases env n <;> simp
  · intro v hv
    unfold get_env_var
    rw [hv]
  · intro r hr
    unfold get_env_var at hr
    cases hv : env n with
    | none => rw [hv] at hr; cases hr
    | some v =>
      rw [hv] at hr
      simp only [Option.some.injEq] at hr
      subst hr
      exact pyRstripComma_no_trailing_comma _

/-- Witness for C10 at a concrete environment: the processed value of the set
variable ends in no comma. -/
theorem get_env_var_spec_witness :
    ("http://x" : String).data.getLast? ≠ some ',' :=
  (get_env_var_spec sampleEnv "API_BASE_URL").2.2 "http://x" (by decide)

theorem run_eq_runLoop (w : World) (top_k : Int) (l : List Nat)
    (hidx : w.index = .ok l) :
    HackernewsNewestFetcher.run w top_k =
      runLoop w ([], []) (pySlice0 top_k l) := by
  unfold HackernewsNewestFetcher.run
  rw [hidx]

/-- A world whose index request succeeds with one identifier but whose
per-identifier record GET fails. -/
def cexW1 : World :=
  ⟨.ok [1], fun _ => .error "connection refused", fun _ => .ok []⟩

/-- A world where every record GET succeeds with a url story, while the
sub-pipeline always fails. -/
def wC1 : World :=
  ⟨.ok [1], fun _ => .ok ⟨some "u", none, none⟩, fun _ => .error "net down"⟩

/-- A world with a two-element index whose first story is an inline-text
story and whose second story is malformed. -/
def cexW2 : World :=
  ⟨.ok [101, 102],
    fun id => if id = 101 then .ok ⟨none, some "t", some "T"⟩
      else .ok ⟨none, none, none⟩,
    fun _ => .ok []⟩

/-- A world with a one-element index whose only story is malformed (neither
url nor text). -/
def cexW6 : World :=
  ⟨.ok [101], fun _ => .ok ⟨none, none, none⟩, fun _ => .ok []⟩

/-- C1, amended: errors raised inside the per-story fetch-and-convert
sub-pipeline invocation or Document construction never surface, so the call
returns normally whenever the index request and every per-identifier record
GET in the processed slice succeed; but a failure of a per-identifier record
GET itself is outside every try block and propagates to the caller (see the
counterexample). -/
theorem run_isOk_of_records_ok (w : World) (top_k : Int) (l : List Nat)
    (hidx : w.index = .ok l)
    (hrec : ∀ id ∈ pySlice0 top_k l, ∃ r, w.record id = .ok r) :
    ∃ p, HackernewsNewestFetcher.run w top_k = .ok p := by
  rw [run_eq_runLoop w top_k l hidx]
  exact runLoop_ok_of_records w _ _ hrec

/-- Witness for C1 at a concrete world: the sub-pipeline always fails, yet
the call returns normally. -/
theorem run_isOk_of_records_ok_witness :
    ∃ p, HackernewsNewestFetcher.run wC1 1 = .ok p :=
  run_isOk_of_records_ok wC1 1 [1] rfl
    (fun _ _ => ⟨⟨some "u", none, none⟩, rfl⟩)

/-- Counterexample to C1 as stated: the index request succeeds, yet a
network failure of the per-identifier record GET propagates to the caller
instead of being skipped. -/
theorem run_record_failure_propagates_cex :
    HackernewsNewestFetcher.run cexW1 1 = .error "connection refused"
    ∧ cexW1.index = .ok [1] := ⟨rfl, rfl⟩

/-- C2, amended: for top_k equal to zero, and for every negative top_k whose
magnitude is at least the index length, the call makes only the index request
and returns an empty document list with nothing printed; for other negative
top_k Python slicing keeps the first (length + top_k) identifiers, so
documents can be returned (see the counterexample). -/
theorem run_empty_of_nonpositive_top_k (w : World) (top_k : Int)
    (l : List Nat) (hidx : w.index = .ok l)
    (h : top_k = 0 ∨ top_k + l.length ≤ 0) :
    HackernewsNewestFetcher.run w top_k = .ok ([], []) := by
  rw [run_eq_runLoop w top_k l hidx, pySlice0_eq_nil top_k l h, runLoop_nil]

/-- Witness for C2 at a concrete world with top_k zero. -/
theorem run_empty_of_nonpositive_top_k_witness :
    HackernewsNewestFetcher.run cexW6 0 = .ok ([], []) :=
  run_empty_of_nonpositive_top_k cexW6 0 [101] rfl (Or.inl rfl)

/-- Counterexample to C2 as stated: with top_k equal to minus one, a
nonpositive top_k, a two-element index is sliced to its first element, that
story is fetched and a document is returned, so the result is not empty. -/
theorem run_negative_top_k_not_empty_cex :
    (-1 : Int) ≤ 0
    ∧ HackernewsNewestFetcher.run cexW2 (-1) =
        .ok ([{ content := "t", metaTitle := some "T" }], [.textIn 101])
    ∧ ([{ content := "t", metaTitle := some "T" }] : List Document) ≠ [] :=
  ⟨by decide, rfl, by decide⟩

/-- C3, amended: for every nonnegative top_k and every upstream
configuration, a normally-returning call returns at most top_k documents;
for negative top_k the bound fails, since Python slicing can still select
identifiers (see the counterexample). -/
theorem run_length_le_top_k_of_nonneg (w : World) (top_k : Int)
    (h0 : 0 ≤ top_k) (p : List Document × List LogEntry)
    (hp : HackernewsNewestFetcher.run w top_k = .ok p) :
    (p.1.length : Int) ≤ top_k := by
  cases hidx : w.index with
  | error e =>
    unfold HackernewsNewestFetcher.run at hp
    rw [hidx] at hp
    cases hp
  | ok l =>
    rw [run_eq_runLoop w top_k l hidx] at hp
    have h1 := runLoop_length_le w _ _ _ hp
    have h2 := pySlice0_length_le top_k h0 l
    simp only [List.length_nil, Nat.zero_add] at h1
    omega

/-- Witness for C3 at a concrete world with top_k one. -/
theorem run_length_le_top_k_of_nonneg_witness :
    ((([] : List Document).length : Int)) ≤ 1 :=
  run_length_le_top_k_of_nonneg cexW6 1 (by decide) ([], []) rfl

/-- Counterexample to C3 as stated: with top_k equal to minus one the call
returns one document, and one is not at most minus one. -/
theorem run_doc_count_exceeds_negative_top_k_cex :
    HackernewsNewestFetcher.run cexW2 (-1) =
      .ok ([{ content := "t", metaTitle := some "T" }], [.textIn 101])
    ∧ ¬ ((([{ content := "t", metaTitle := some "T" }] :
        List Document).length : Int) ≤ -1) :=
  ⟨rfl, by decide⟩

/-- A world with a one-element index whose only story is an inline-text
story. -/
def wC6 : World :=
  ⟨.ok [0], fun _ => .ok ⟨none, some "t", some "T"⟩, fun _ => .ok []⟩

/-- C6, amended: for every top_k greater than the upstream index length the
whole index is processed, so a normally-returning call returns at most
index-length documents, and exactly index-length documents whenever every
record GET succeeds and every story yields a document; with a failing or
malformed story the result is shorter than the index (see the
counterexample), and in no case is it padded to top_k. -/
theorem run_top_k_exceeding_index_length (w : World) (top_k : Int)
    (l : List Nat) (f : Nat → StoryRecord)
    (hidx : w.index = .ok l) (hlen : (l.length : Int) < top_k) :
    (∀ p, HackernewsNewestFetcher.run w top_k = .ok p →
      p.1.length ≤ l.length)
    ∧ ((∀ id ∈ l, w.record id = .ok (f id)) →
        (∀ id ∈ l, (storyStep w id (f id)).1.length = 1) →
        ∃ p, HackernewsNewestFetcher.run w top_k = .ok p
          ∧ p.1.length = l.length) := by
  have hslice : pySlice0 top_k l = l :=
    pySlice0_of_length_le top_k l (by omega)
  constructor
  · intro p hp
    rw [run_eq_runLoop w top_k l hidx, hslice] at hp
    have := runLoop_length_le w l ([], []) p hp
    simpa using this
  · intro hrec hone
    refine ⟨((l.map fun id => (storyStep w id (f id)).1).flatten,
      (l.map fun id => (storyStep w id (f id)).2).flatten), ?_, ?_⟩
    · rw [run_eq_runLoop w top_k l hidx, hslice]
      have := runLoop_map_of_records w f l ([], []) hrec
      simpa using this
    · simp only [List.length_flatten, List.map_map]
      exact sum_lengths_of_all_one _ l (by intro a ha; simpa using hone a ha)

/-- Witness for C6 at a concrete world: top_k two, index length one, every
story succeeds, one document returned. -/
theorem run_top_k_exceeding_index_length_witness :
    ∃ p, HackernewsNewestFetcher.run wC6 2 = .ok p
      ∧ p.1.length = ([0] : List Nat).length :=
  (run_top_k_exceeding_index_length wC6 2 [0]
    (fun _ => ⟨none, some "t", some "T"⟩) rfl (by decide)).2
    (fun _ _ => rfl) (fun id _ => by simp [storyStep])

/-- Counterexample to C6 as stated: top_k five exceeds the index length one,
but the only story is malformed, so the call returns zero documents, not
one. -/
theorem run_top_k_exceeding_cex :
    HackernewsNewestFetcher.run cexW6 5 = .ok ([], [])
    ∧ ([101] : List Nat).length = 1
    ∧ (([] : List Document).length ≠ ([101] : List Nat).length)
    ∧ (([101] : List Nat).length : Int) < 5 :=
  ⟨rfl, rfl, by decide, by decide⟩

/-- A world whose first story has a url the sub-pipeline fails on and whose
second story has a url the sub-pipeline converts. -/
def wC4 : World :=
  ⟨.ok [0, 1],
    fun id => if id = 0 then .ok ⟨some "bad", none, none⟩
      else .ok ⟨some "good", none, none⟩,
    fun u => if u = "bad" then .error "boom"
      else .ok [{ content := "c", metaTitle := none }]⟩

/-- C4: a story whose fetch-and-convert sub-pipeline invocation raises any
error (a pipeline error or an empty document list, whose element access
raises) is skipped with a printed notice and omitted, and the loop continues
to the next identifier: with one failing and one succeeding record and top_k
two, the result is exactly the one successful document. -/
theorem run_skips_failing_pipeline_story (w : World) (a b : Nat)
    (ra rb : StoryRecord) (u1 u2 : String) (d : Document) (e : String)
    (hidx : w.index = .ok [a, b])
    (hra : w.record a = .ok ra) (hu1 : ra.url = some u1)
    (hfail : w.pipeline u1 = .error e ∨ w.pipeline u1 = .ok [])
    (hrb : w.record b = .ok rb) (hu2 : rb.url = some u2)
    (hok : w.pipeline u2 = .ok [d]) :
    HackernewsNewestFetcher.run w 2 = .ok ([d], [.skipped a]) := by
  have hstep1 : storyStep w a ra = ([], [.skipped a]) := by
    rcases hfail with hf | hf <;> simp [storyStep, hu1, hf]
  have hstep2 : storyStep w b rb = ([d], []) := by
    simp [storyStep, hu2, hok]
  rw [run_eq_runLoop w 2 [a, b] hidx]
  have hslice : pySlice0 (2 : Int) [a, b] = [a, b] :=
    pySlice0_of_length_le 2 [a, b] (by simp)
  rw [hslice, runLoop_cons, hra]
  dsimp only
  rw [hstep1, runLoop_cons, hrb]
  dsimp only
  rw [hstep2, runLoop_nil]
  simp

/-- Witness for C4 at a concrete world. -/
theorem run_skips_failing_pipeline_story_witness :
    HackernewsNewestFetcher.run wC4 2 =
      .ok ([{ content := "c", metaTitle := none }], [.skipped 0]) :=
  run_skips_failing_pipeline_story wC4 0 1 ⟨some "bad", none, none⟩
    ⟨some "good", none, none⟩ "bad" "good"
    { content := "c", metaTitle := none } "boom" rfl (by decide) rfl
    (Or.inl (by decide)) (by decide) rfl (by decide)

/-- A world whose single story is an inline-text story with a title. -/
def wC5 : World :=
  ⟨.ok [7], fun _ => .ok ⟨none, some "hello", some "Title"⟩, fun _ => .ok []⟩

/-- C5: a story record with a text field and no url field yields exactly one
appended Document whose content is the record text and whose metadata title
is the record title; when the Document construction fails (the title access
raises on a missing title), the story is skipped with a printed notice and
the error is not propagated. -/
theorem run_text_story_document (w : World) (a : Nat) (r : StoryRecord)
    (t : String) (hidx : w.index = .ok [a]) (hr : w.record a = .ok r)
    (hurl : r.url = none) (htext : r.text = some t) :
    (∀ ti, r.title = some ti →
        HackernewsNewestFetcher.run w 1 =
          .ok ([{ content := t, metaTitle := some ti }], [.textIn a]))
    ∧ (r.title = none →
        HackernewsNewestFetcher.run w 1 =
          .ok ([], [.textIn a, .skipped a])) := by
  have hslice : pySlice0 (1 : Int) [a] = [a] :=
    pySlice0_of_length_le 1 [a] (by simp)
  constructor
  · intro ti hti
    have hstep : storyStep w a r =
        ([{ content := t, metaTitle := some ti }], [.textIn a]) := by
      simp [storyStep, hurl, htext, hti]
    rw [run_eq_runLoop w 1 [a] hidx, hslice, runLoop_cons, hr]
    dsimp only
    rw [hstep, runLoop_nil]
    simp
  · intro hti
    have hstep : storyStep w a r = ([], [.textIn a, .skipped a]) := by
      simp [storyStep, hurl, htext, hti]
    rw [run_eq_runLoop w 1 [a] hidx, hslice, runLoop_cons, hr]
    dsimp only
    rw [hstep, runLoop_nil]
    simp

/-- Witness for C5 at a concrete world. -/
theorem run_text_story_document_witness :
    HackernewsNewestFetcher.run wC5 1 =
      .ok ([{ content := "hello", metaTitle := some "Title" }], [.textIn 7]) :=
  (run_text_story_document wC5 7 ⟨none, some "hello", some "Title"⟩ "hello"
    rfl rfl rfl rfl).1 "Title" rfl

/-- A world whose first story is malformed and whose second story is an
inline-text story. -/
def wC7 : World :=
  ⟨.ok [0, 1],
    fun id => if id = 0 then .ok ⟨none, none, none⟩
      else .ok ⟨none, some "t", some "T"⟩,
    fun _ => .ok []⟩

/-- C7: a story record with neither url nor text is omitted silently: the
returned documents and the printed lines are exactly those of the following
successful story, so no document is appended for it, no error is raised, and
no notice of any kind is printed for it, while processing continues. -/
theorem run_malformed_record_silently_omitted (w : World) (a b : Nat)
    (r rb : StoryRecord) (t ti : String)
    (hidx : w.index = .ok [a, b]) (hr : w.record a = .ok r)
    (hurl : r.url = none) (htext : r.text = none)
    (hrb : w.record b = .ok rb) (hurlb : rb.url = none)
    (htextb : rb.text = some t) (htitleb : rb.title = some ti) :
    HackernewsNewestFetcher.run w 2 =
      .ok ([{ content := t, metaTitle := some ti }], [.textIn b]) := by
  have hstep1 : storyStep w a r = ([], []) := by
    simp [storyStep, hurl, htext]
  have hstep2 : storyStep w b rb =
      ([{ content := t, metaTitle := some ti }], [.textIn b]) := by
    simp [storyStep, hurlb, htextb, htitleb]
  rw [run_eq_runLoop w 2 [a, b] hidx]
  have hslice : pySlice0 (2 : Int) [a, b] = [a, b] :=
    pySlice0_of_length_le 2 [a, b] (by simp)
  rw [hslice, runLoop_cons, hr]
  dsimp only
  rw [hstep1, runLoop_cons, hrb]
  dsimp only
  rw [hstep2, runLoop_nil]
  simp

/-- Witness for C7 at a concrete world. -/
theorem run_malformed_record_silently_omitted_witness :
    HackernewsNewestFetcher.run wC7 2 =
      .ok ([{ content := "t", metaTitle := some "T" }], [.textIn 1]) :=
  run_malformed_record_silently_omitted wC7 0 1 ⟨none, none, none⟩
    ⟨none, some "t", some "T"⟩ "t" "T" rfl (by decide) rfl rfl (by decide)
    rfl rfl rfl

/-- A world with a three-element index of inline-text stories, the third
record failing if it were ever requested. -/
def wC8 : World :=
  ⟨.ok [101, 102, 103],
    fun id => if id = 103 then .error "never requested"
      else .ok ⟨none, some "t", some "T"⟩,
    fun _ => .ok []⟩

/-- Like wC8 but with a different third record; both agree on the first two
identifiers. -/
def wC8b : World :=
  ⟨.ok [101, 102, 103],
    fun id => if id = 103 then .ok ⟨some "u", none, none⟩
      else .ok ⟨none, some "t", some "T"⟩,
    fun _ => .ok []⟩

/-- C8: the record GETs touch only the identifiers in the top_k slice of the
index: two worlds with the same index and sub-pipeline that agree on the
records of the sliced identifiers produce identical calls, whatever the
records outside the slice (with index 101, 102, 103 and top_k two, record 103
never influences the call); and the returned documents are the concatenation,
in slice order, of the documents of each processed identifier. -/
theorem run_requests_only_slice_in_order (w w' : World) (l : List Nat)
    (top_k : Int) (f : Nat → StoryRecord)
    (hidx : w.index = .ok l) (hidx2 : w'.index = .ok l)
    (hpipe : w.pipeline = w'.pipeline)
    (hagree : ∀ id ∈ pySlice0 top_k l, w.record id = w'.record id)
    (hrec : ∀ id ∈ pySlice0 top_k l, w.record id = .ok (f id)) :
    HackernewsNewestFetcher.run w top_k = HackernewsNewestFetcher.run w' top_k
    ∧ HackernewsNewestFetcher.run w top_k =
        .ok (((pySlice0 top_k l).map fun id =>
            (storyStep w id (f id)).1).flatten,
          ((pySlice0 top_k l).map fun id =>
            (storyStep w id (f id)).2).flatten) := by
  constructor
  · rw [run_eq_runLoop w top_k l hidx, run_eq_runLoop w' top_k l hidx2]
    exact runLoop_congr hpipe _ _ hagree
  · rw [run_eq_runLoop w top_k l hidx]
    have := runLoop_map_of_records w f _ ([], []) hrec
    simpa using this

/-- Witness for C8 at wC8 and wC8b: record 103 differs between the worlds,
in one of them it even fails, yet the calls with top_k two coincide. -/
theorem run_requests_only_slice_in_order_witness :
    HackernewsNewestFetcher.run wC8 2 = HackernewsNewestFetcher.run wC8b 2 :=
  (run_requests_only_slice_in_order wC8 wC8b [101, 102, 103] 2
    (fun _ => ⟨none, some "t", some "T"⟩) rfl rfl rfl (by decide)
    (by decide)).1

/-- C9: TimedComponent.run returns exactly the value the wrapped component
returns on the given keyword arguments, unchanged; the wrapper only adds the
printed duration line. -/
theorem timedComponent_run_returns_wrapped_result {κ ρ : Type}
    (tc : TimedComponent κ ρ) (start stop : Nat) (kwargs : κ) :
    (TimedComponent.run tc start stop kwargs).1 = tc.component kwargs := rfl

end Haystack
